import Mathlib

/-!
Verification development for the haxball-server operator console
(src/painel.ts, class ServerPainel).

JavaScript strings are embedded as lists of characters (JsStr); the
JavaScript string operations used by the source (startsWith, slice,
trim, split(' '), toLowerCase, replace with a string pattern -- which
replaces only the first occurrence -- and replace(/\"/g, ...)) are
defined below, faithful to their JS semantics.

The Discord message handler ServerPainel._command is embedded as a pure
function from a message and an environment of external collaborators
(file system, server spawn/close, per-process telemetry) to the list of
observable effects it performs, together with an optional error value
recording that the underlying async function's promise rejected.
-/

/-- Embedding of a JavaScript string as a list of characters. -/
abbrev JsStr := List Char

/-- Embed a Lean string literal into JsStr. -/
def js (s : String) : JsStr := s.toList

/-- JS String.prototype.startsWith (here on character lists). -/
def jsStartsWith : JsStr → JsStr → Bool
  | [], _ => true
  | _ :: _, [] => false
  | c :: cs, d :: ds => decide (c = d) && jsStartsWith cs ds

/-- JS String.prototype.trim: drop whitespace from both ends. -/
def jsTrim (s : JsStr) : JsStr :=
  ((s.dropWhile Char.isWhitespace).reverse.dropWhile Char.isWhitespace).reverse

/-- Helper for jsSplit: accumulates the current chunk (reversed). -/
def jsSplitAux (sep : Char) : JsStr → JsStr → List JsStr
  | [], acc => [acc.reverse]
  | c :: cs, acc =>
    if c = sep then acc.reverse :: jsSplitAux sep cs []
    else jsSplitAux sep cs (c :: acc)

/-- JS String.prototype.split with a single-character separator:
"a  b".split(' ') = ["a","","b"], "".split(' ') = [""]. -/
def jsSplit (sep : Char) (s : JsStr) : List JsStr := jsSplitAux sep s []

/-- JS String.prototype.toLowerCase (ASCII). -/
def jsToLower (s : JsStr) : JsStr := s.map Char.toLower

/-- JS String.prototype.replace with a string pattern: replaces only the
FIRST occurrence of the pattern, and returns the string unchanged when
the pattern does not occur. An empty pattern matches at position 0. -/
def jsReplaceFirst (p r : JsStr) : JsStr → JsStr
  | [] => if p = [] then r else []
  | c :: cs =>
    if jsStartsWith p (c :: cs) then r ++ (c :: cs).drop p.length
    else c :: jsReplaceFirst p r cs

/-- JS String.prototype.replace with the global regex /\"/g: removes
every double-quote character. -/
def jsRemoveQuotes (s : JsStr) : JsStr := s.filter (fun c => c ≠ '"')

/-- JS Array.prototype.join with a separator. -/
def joinSep (sep : JsStr) : List JsStr → JsStr
  | [] => []
  | [x] => x
  | x :: y :: xs => x ++ sep ++ joinSep sep (y :: xs)

/-- Decimal rendering of a Nat, as JS template interpolation does. -/
def natToJs (n : Nat) : JsStr := (Nat.repr n).toList

/-- Decimal rendering of an Int, as JS template interpolation does. -/
def intToJs (i : Int) : JsStr := (Int.repr i).toList

/-- A Discord message as far as the dispatcher reads it:
msg.author.id and msg.content. -/
structure Msg where
  author : JsStr
  content : JsStr

/-- The PainelConfig data the dispatcher uses: the command marker
(discordPrefix), the operator allow-list (mastersDiscordId) and the bot
catalogue (bots: name to script-file path, as an association list). -/
structure Config where
  pre : JsStr
  masters : List JsStr
  bots : List (JsStr × JsStr)

/-- Result of the three parsing lines of ServerPainel._command
(painel.ts lines 105-107):
  const args = msg.content.slice(prefix.length).trim().split(' ');
  const text = msg.content.slice(prefix.length).trim()
                  .replace(args[0] + " ", "");
  const command = args.shift()?.toLowerCase();
args here is the array AFTER the shift. -/
structure Parsed where
  args : List JsStr
  text : JsStr
  command : JsStr
deriving DecidableEq

/-- The parse of painel.ts lines 105-107. text is computed before the
shift, so its removed pattern is the first token plus a space. -/
def parseMsg (pre content : JsStr) : Parsed :=
  { args := (jsSplit ' ' (jsTrim (content.drop pre.length))).tail
    text := jsReplaceFirst
      ((jsSplit ' ' (jsTrim (content.drop pre.length))).headD [] ++ [' ']) []
      (jsTrim (content.drop pre.length))
    command := jsToLower ((jsSplit ' ' (jsTrim (content.drop pre.length))).headD []) }

/-- CPU/memory reading for one process, as returned by pidusage.
Floating-point values are abstracted as their already-rendered decimal
text (the embedding does not model IEEE floats); the pid is exact. -/
structure Status where
  pid : Nat
  cpuStr : JsStr
  memStr : JsStr
deriving DecidableEq

instance exceptDecEq {ε α : Type} [DecidableEq ε] [DecidableEq α] :
    DecidableEq (Except ε α) := fun a b =>
  match a, b with
  | .ok x, .ok y =>
    if h : x = y then .isTrue (by rw [h]) else .isFalse (by simp [h])
  | .error x, .error y =>
    if h : x = y then .isTrue (by rw [h]) else .isFalse (by simp [h])
  | .ok _, .error _ => .isFalse (by simp)
  | .error _, .ok _ => .isFalse (by simp)

/-- One puppeteer browser of Server.browsers, as far as the panel reads
it: the first page's title, the browser process pid, the proxyServer
tag attached to the browser object (undefined when the room runs
without a proxy), and the result the external pidusage call would
produce for its pid (an exception is a .error). -/
structure Browser where
  title : JsStr
  pid : Nat
  proxy : Option JsStr
  usage : Except JsStr Status
deriving DecidableEq

/-- What Server.open resolves with: the room link and the browser pid. -/
structure OpenResult where
  link : JsStr
  pid : Nat
deriving DecidableEq

/-- External collaborators of ServerPainel._command. Fallible async
calls are embedded as Except-valued oracles (a .error value means the
underlying promise rejects / the callback receives an error). Host
telemetry readings are pre-rendered strings except where the code does
arithmetic on them. -/
structure Env where
  browsers : List Browser
  readFile : JsStr → Except JsStr JsStr
  openRoom : JsStr → JsStr → Except JsStr OpenResult
  closeRoom : JsStr → Except JsStr Bool
  evalJs : JsStr → Except JsStr JsStr
  cpuCount : Nat
  cpuUsage : Int
  memUsedStr : JsStr
  memTotalStr : JsStr
  memFreePct : JsStr
  osName : JsStr
  uptimeStr : JsStr
  serverCpuStr : JsStr
  serverMemStr : JsStr

/-- A Discord MessageEmbed as the panel builds it: title, description
and addField pairs (the inline flag is presentation-only and omitted). -/
structure Embed where
  title : JsStr := []
  description : JsStr := []
  fields : List (JsStr × JsStr) := []
deriving DecidableEq

/-- The observable effects a single _command invocation performs, in
order: channel sends/edits, the server calls that mutate the fleet,
process exit, and the eval of operator-supplied code. -/
inductive Effect where
  | send (e : Embed)
  | sendText (s : JsStr)
  | edit (e : Embed)
  | openRoom (data token : JsStr)
  | closeRoom (target : JsStr)
  | closeBrowser (pid : Nat)
  | exitProcess
  | evalJs (code : JsStr)
deriving DecidableEq

/-- Whether an effect is a request that can change the fleet set (spawn
or terminate a room process, or kill the whole server). -/
def Effect.mutatesFleet : Effect → Bool
  | .openRoom _ _ => true
  | .closeRoom _ => true
  | .closeBrowser _ => true
  | .exitProcess => true
  | _ => false

/-- The name string built for one room in _getRoomNameList (line 69):
page title, space, parenthesized browser pid. -/
def roomName (b : Browser) : JsStr := b.title ++ js " (" ++ natToJs b.pid ++ js ")"

/-- JS template interpolation of the proxy tag: an absent (undefined)
proxyServer renders as the text "undefined". -/
def renderProxy : Option JsStr → JsStr
  | none => js "undefined"
  | some p => p

/-- One accumulated group of _getRoomNameList's proxyRooms array:
a proxy tag and the newline-terminated concatenation of member names. -/
structure PGroup where
  text : JsStr
  proxy : Option JsStr
deriving DecidableEq

/-- The find-then-append-else-push step of _getRoomNameList's grouping
loop (lines 77-85): the FIRST group with this proxy gets the name
appended; if none exists a new group is pushed at the end. -/
def pushRoom (name : JsStr) (proxy : Option JsStr) : List PGroup → List PGroup
  | [] => [{ text := name ++ ['\n'], proxy := proxy }]
  | g :: gs =>
    if g.proxy = proxy then { g with text := g.text ++ name ++ ['\n'] } :: gs
    else g :: pushRoom name proxy gs

/-- The whole grouping loop of _getRoomNameList over (name, proxy)
pairs, in room order. -/
def buildGroups (rooms : List (JsStr × Option JsStr)) : List PGroup :=
  rooms.foldl (fun acc r => pushRoom r.1 r.2 acc) []

/-- The (name, proxy) pairs _getRoomNameList collects from the live
browsers (lines 63-70). -/
def roomsOf (browsers : List Browser) : List (JsStr × Option JsStr) :=
  browsers.map (fun b => (roomName b, b.proxy))

/-- ServerPainel._getRoomNameList (lines 62-88): fixed message when no
rooms; flat newline-joined names when no room has a proxy; otherwise
groups rendered as a bullet header with the proxy tag followed by the
group's names, joined with a newline. -/
def _getRoomNameList (browsers : List Browser) : JsStr :=
  let rooms := roomsOf browsers
  if rooms = [] then js "There are no open rooms!"
  else if ∀ r ∈ rooms, r.2 = none then joinSep ['\n'] (rooms.map (·.1))
  else
    joinSep ['\n']
      ((buildGroups rooms).map
        (fun g => js "• " ++ renderProxy g.proxy ++ ['\n'] ++ g.text))

/-- ServerPainel._getRoomUsageList (lines 90-100): awaits pidusage for
each browser in order and collects (status, title) pairs. The awaits
are sequential and unguarded: the first rejection rejects the whole
async function, so later rooms are not sampled. -/
def _getRoomUsageList : List Browser → Except JsStr (List (Status × JsStr))
  | [] => .ok []
  | b :: rest =>
    match b.usage with
    | .error e => .error e
    | .ok s =>
      match _getRoomUsageList rest with
      | .error e => .error e
      | .ok l => .ok ((s, b.title) :: l)

/-- JS args[0] under string coercion: reading index 0 of an empty array
yields undefined, which string concatenation renders as "undefined"
(painel.ts line 139 builds the pattern args[0] + " "). -/
def jsArg0 (args : List JsStr) : JsStr :=
  match args with
  | [] => js "undefined"
  | a :: _ => a

/-- Whether Object.keys(this._bots).includes(args[0]) holds (line 141):
false when there is no first argument (undefined is never a key). -/
def botKnown (cfg : Config) (args : List JsStr) : Prop :=
  match args with
  | [] => False
  | b :: _ => b ∈ cfg.bots.map (·.1)

instance (cfg : Config) (args : List JsStr) : Decidable (botKnown cfg args) :=
  match args with
  | [] => .isFalse (fun h => h)
  | _ :: _ => List.instDecidableMemOfLawfulBEq _ _

/-- The script path this._bots[args[0]] (line 151), by association-list
lookup on the bot catalogue. -/
def botPath (cfg : Config) (args : List JsStr) : JsStr :=
  match args with
  | [] => []
  | b :: _ => (((cfg.bots.find? (fun kv => kv.1 = b)).map (·.2)).getD [])

/-- The token computed on line 139: text.replace(args[0] + " ", "")
(first occurrence only), then every double quote removed, then the
first occurrence of "Token obtained: " removed. args is post-shift. -/
def openTokenOf (p : Parsed) : JsStr :=
  jsReplaceFirst (js "Token obtained: ") []
    (jsRemoveQuotes (jsReplaceFirst (jsArg0 p.args ++ [' ']) [] p.text))

/-- The missing-token warning description (line 148). -/
def missingTokenDesc (pre : JsStr) : JsStr :=
  js "You have to define a headless token [token](https://www.haxball.com/headlesstoken) as second argument: "
    ++ pre ++ js "open <bot> <token>"

/-- The unknown-bot reply description (line 142). -/
def unknownBotDesc (pre : JsStr) : JsStr :=
  js "This bot does not exist. Type " ++ pre
    ++ js "info to see the list of available bots."

/-- The description the open branch's readFile callback finally leaves
on the embed when the file was read: the success or failure of
this._server.open (lines 155-161). -/
def openOutcomeDesc (env : Env) (data token : JsStr) : JsStr :=
  match env.openRoom data token with
  | .ok r =>
    js "Room running! [Click here to join.](" ++ r.link
      ++ js ")\nBrowser process: " ++ natToJs r.pid
  | .error e => js "Unable to open the room!\n " ++ e

/-- The open branch (lines 136-166). The embed title is set first; the
unknown-bot check returns early with a single send; the missing-token
check only sets the embed description (no send, no return); then the
readFile callback overwrites the description in every path (error,
spawn success, spawn failure) and performs the one send. All rejections
inside it are handled (err-first callback, try/catch around open). -/
def openEffects (env : Env) (cfg : Config) (p : Parsed) : List Effect :=
  let embed0 : Embed := { title := js "Open room" }
  let token := openTokenOf p
  if botKnown cfg p.args then
    let embed1 :=
      if token = [] then { embed0 with description := missingTokenDesc cfg.pre }
      else embed0
    match env.readFile (botPath cfg p.args) with
    | .error err => [.send { embed1 with description := js "Error: " ++ err }]
    | .ok data =>
      [.openRoom data (openTokenOf p),
       .send { embed1 with description := openOutcomeDesc env data (openTokenOf p) }]
  else
    [.send { embed0 with description := unknownBotDesc cfg.pre }]

/-- The help embed (lines 112-126). -/
def helpEmbed : Embed :=
  { title := js "Help"
    description := js "Haxball Server is a small server utility for Haxball rooms."
    fields :=
      [(js "help", js "Command list."),
       (js "info", js "Server info."),
       (js "meminfo", js "CPU and memory info."),
       (js "open", js "Open a room."),
       (js "close", js "Close a room."),
       (js "exit", js "Close the server."),
       (js "eval", js "Execute Javascript."),
       (js "tokenlink", js "Haxball Headless Token page.")] }

/-- The tokenlink embed (lines 128-134). -/
def tokenlinkEmbed : Embed :=
  { title := js "Headless Token"
    description := js "[Click here.](https://www.haxball.com/headlesstoken)" }

/-- The info branch (lines 168-178): one embed with the room name list
and the bot catalogue keys. -/
def infoEffects (env : Env) (cfg : Config) : List Effect :=
  [.send { title := js "Information"
           fields :=
             [(js "Open rooms", _getRoomNameList env.browsers),
              (js "Bot list", joinSep ['\n'] (cfg.bots.map (·.1)))] }]

/-- The placeholder embed meminfo sends first (lines 181-186). -/
def loadingEmbed : Embed :=
  { title := js "Information", description := js "Loading..." }

/-- The final meminfo embed (lines 193-207), built from host telemetry,
the console process's own usage and the per-room usage list. -/
def meminfoEmbed (env : Env) (usages : List (Status × JsStr)) : Embed :=
  let serverCpu :=
    js "CPU server usage: " ++ env.serverCpuStr
      ++ js "%\nMemory server usage: " ++ env.serverMemStr ++ js " MB\n"
  let roomMsg :=
    if 0 < env.browsers.length then
      ['\n'] ++ joinSep ['\n']
        (usages.map (fun u =>
          js "**" ++ u.2 ++ js " (" ++ natToJs u.1.pid ++ js ")**:\n"
            ++ u.1.cpuStr ++ js "% CPU\n" ++ u.1.memStr ++ js " MB memory\n"))
    else []
  { title := js "Information"
    description := serverCpu ++ roomMsg ++ ['\n']
    fields :=
      [(js "CPUs", natToJs env.cpuCount),
       (js "CPU usage", intToJs env.cpuUsage ++ js "%"),
       (js "Free CPU", intToJs (100 - env.cpuUsage) ++ js "%"),
       (js "Memory", env.memUsedStr ++ js "/" ++ env.memTotalStr
          ++ js " GB (" ++ env.memFreePct ++ js "% livre)"),
       (js "OS", env.osName),
       (js "Machine Uptime", env.uptimeStr)] }

/-- The meminfo branch (lines 180-210): sends the Loading placeholder,
then awaits _getRoomUsageList. That await is not guarded by any
try/catch, so a sampling rejection rejects the whole handler after the
placeholder was sent; otherwise the placeholder message is edited to
the final report. -/
def meminfoEffects (env : Env) : List Effect × Option JsStr :=
  match _getRoomUsageList env.browsers with
  | .error e => ([.send loadingEmbed], some e)
  | .ok usages => ([.send loadingEmbed, .edit (meminfoEmbed env usages)], none)

/-- The close branch (lines 212-224): awaits this._server.close(text)
unguarded (a rejection rejects the handler with no reply), then sends
one embed whose description depends on the boolean result. -/
def closeEffects (env : Env) (p : Parsed) : List Effect × Option JsStr :=
  match env.closeRoom p.text with
  | .error e => ([.closeRoom p.text], some e)
  | .ok true =>
    ([.closeRoom p.text,
      .send { title := js "Close room", description := js "Room closed!" }], none)
  | .ok false =>
    ([.closeRoom p.text,
      .send { title := js "Close room", description := js "Unable to find room" }], none)

/-- The exit branch (lines 226-238): announce, close each browser,
process.exit(). -/
def exitEffects (env : Env) : List Effect :=
  [.send { title := js "Closing", description := js "Closing server..." }]
    ++ env.browsers.map (fun b => .closeBrowser b.pid)
    ++ [.exitProcess]

/-- The eval branch (lines 240-251): evaluates the joined args inside
its own try/catch, sending either the inspected value or the error
text. -/
def evalEffects (env : Env) (p : Parsed) : List Effect :=
  let code := joinSep [' '] p.args
  [.evalJs code,
   .sendText
     (match env.evalJs code with
      | .ok v => v
      | .error e => js "`ERROR` ```xl\n" ++ e ++ js "\n```")]

/-- Routing on the parsed command name (the body of the authorized
block, lines 112-251). The source tests the command against each
literal in sequence with independent if statements; since the command
equals at most one literal, the if chain below is equivalent. -/
def route (env : Env) (cfg : Config) (p : Parsed) : List Effect × Option JsStr :=
  if p.command = js "help" then ([.send helpEmbed], none)
  else if p.command = js "tokenlink" then ([.send tokenlinkEmbed], none)
  else if p.command = js "open" then (openEffects env cfg p, none)
  else if p.command = js "info" then (infoEffects env cfg, none)
  else if p.command = js "meminfo" then meminfoEffects env
  else if p.command = js "close" then closeEffects env p
  else if p.command = js "exit" then (exitEffects env, none)
  else if p.command = js "eval" then (evalEffects env p, none)
  else ([], none)

/-- ServerPainel._command (lines 102-253) as a whole: returns the
effects performed and, when the async handler's promise rejects, the
rejection value. Messages not bearing the configured marker, and
messages from senders outside mastersDiscordId, do nothing. -/
def dispatch (env : Env) (cfg : Config) (m : Msg) : List Effect × Option JsStr :=
  if jsStartsWith cfg.pre m.content = true then
    if m.author ∈ cfg.masters then route env cfg (parseMsg cfg.pre m.content)
    else ([], none)
  else ([], none)

/-- Outcome of one turn of the client's message event loop. -/
inductive LoopOutcome where
  | clean (effects : List Effect)
  | unhandledRejection (effects : List Effect) (err : JsStr)
deriving DecidableEq

/-- The message listener installed in the constructor (lines 41-47):
  try { this._command(msg); } catch (e) { this._logError(e, ...); }
_command is an async function and the call is NOT awaited, so in
JavaScript it never throws synchronously: a failure inside it surfaces
as a rejection of the returned promise, which this try/catch does not
observe. The catch branch (and hence _logError) is therefore
unreachable, and a rejecting handler becomes an unhandled promise
rejection in the event loop. -/
def onMessage (env : Env) (cfg : Config) (m : Msg) : LoopOutcome :=
  match dispatch env cfg m with
  | (effs, none) => .clean effs
  | (effs, some e) => .unhandledRejection effs e

/-- Split at every character satisfying the predicate (helper). -/
def jsSplitPredAux (p : Char → Bool) : JsStr → JsStr → List JsStr
  | [], acc => [acc.reverse]
  | c :: cs, acc =>
    if p c then acc.reverse :: jsSplitPredAux p cs []
    else jsSplitPredAux p cs (c :: acc)

/-- Split at every character satisfying the predicate. -/
def jsSplitPred (p : Char → Bool) (s : JsStr) : List JsStr := jsSplitPredAux p s []

/-- Splitting a string on whitespace, read in the ordinary tokenizing
sense: the maximal whitespace-free tokens, in order. -/
def wsTokens (s : JsStr) : List JsStr :=
  (jsSplitPred Char.isWhitespace s).filter (fun t => t ≠ [])

/-- Modelled from the spec's words for the Command Dispatcher parse
(spec 4.2): "Strips the prefix, splits on whitespace; first token
(lower-cased) is the command name; remaining tokens are rawArgs;
rawTail is the original trimmed text with the command name removed
once." To be compared with parseMsg, the parse the source performs. -/
def specParse (pre content : JsStr) : Parsed :=
  let trimmed := jsTrim (content.drop pre.length)
  let toks := wsTokens trimmed
  { args := toks.tail
    text := jsReplaceFirst (toks.headD []) [] trimmed
    command := jsToLower (toks.headD []) }

/-- Modelled from the spec's words for claim C9: "the raw second
argument text": what remains of the parsed rawTail once the first
argument (the botId) and its following space are removed (first
occurrence), exactly the text from which the source carves the token. -/
def secondArgText (p : Parsed) : JsStr :=
  jsReplaceFirst (jsArg0 p.args ++ [' ']) [] p.text

/-- Modelled from the spec's words for claim C9: the sanitized token --
the raw second argument text with every double-quote character removed
and then the literal "Token obtained: " removed (once, at its first
occurrence; for a pasted token that literal is the leading text). -/
def tokenSpec (p : Parsed) : JsStr :=
  jsReplaceFirst (js "Token obtained: ") [] (jsRemoveQuotes (secondArgText p))

/-- First-seen-order list of the distinct proxy tags of a room list
(spec-side grouping key order). -/
def seenProxies (rooms : List (JsStr × Option JsStr)) : List (Option JsStr) :=
  rooms.foldl (fun acc r => if r.2 ∈ acc then acc else acc ++ [r.2]) []

/-- Spec-side group body: the newline-terminated names of exactly the
rooms carrying the given proxy tag, in room order. -/
def groupText (rooms : List (JsStr × Option JsStr)) (p : Option JsStr) : JsStr :=
  (rooms.filter (fun r => r.2 = p)).foldl (fun t r => t ++ r.1 ++ ['\n']) []

/-- Modelled from the spec's words for the Room Inventory (spec 4.4):
groups handles by proxy label (handles with none forming their own
group), each group holding its member names, groups in first-seen
order. To be compared with buildGroups, the grouping the source
computes. -/
def groupSpec (rooms : List (JsStr × Option JsStr)) : List PGroup :=
  (seenProxies rooms).map (fun p => { text := groupText rooms p, proxy := p })

/-- The eight command names the authorized block tests for. -/
def knownCommands : List JsStr :=
  [js "help", js "tokenlink", js "open", js "info",
   js "meminfo", js "close", js "exit", js "eval"]

/-- A small concrete configuration: marker "!", one operator "m1", one
bot "alpha" backed by the script file "alpha.js". -/
def cfgEx : Config :=
  { pre := js "!", masters := [js "m1"], bots := [(js "alpha", js "alpha.js")] }

/-- A concrete environment in which every collaborator succeeds:
reading "alpha.js" yields "SCRIPT", spawning resolves with link "L" and
pid 7, closing finds no room, and there are no live browsers. -/
def envEx : Env :=
  { browsers := []
    readFile := fun p => if p = js "alpha.js" then .ok (js "SCRIPT") else .error (js "ENOENT")
    openRoom := fun _ _ => .ok { link := js "L", pid := 7 }
    closeRoom := fun _ => .ok false
    evalJs := fun _ => .ok (js "undefined")
    cpuCount := 4
    cpuUsage := 25
    memUsedStr := js "1.00"
    memTotalStr := js "2.00"
    memFreePct := js "50"
    osName := js "linux"
    uptimeStr := js "00:00:01"
    serverCpuStr := js "1.00"
    serverMemStr := js "10.00" }

/-- The three-room fleet of the spec's Room Inventory scenario: Room A
and Room B behind proxy1, Room C without a proxy. -/
def exampleFleet : List Browser :=
  [{ title := js "Room A", pid := 1, proxy := some (js "proxy1")
     usage := .ok { pid := 1, cpuStr := js "1.00", memStr := js "1.00" } },
   { title := js "Room B", pid := 2, proxy := some (js "proxy1")
     usage := .ok { pid := 2, cpuStr := js "1.00", memStr := js "1.00" } },
   { title := js "Room C", pid := 3, proxy := none
     usage := .ok { pid := 3, cpuStr := js "1.00", memStr := js "1.00" } }]

/-- A fleet whose middle room's telemetry sampling rejects (its process
is gone), while the first and third sample fine. -/
def faultyFleet : List Browser :=
  [{ title := js "Room A", pid := 1, proxy := none
     usage := .ok { pid := 1, cpuStr := js "1.00", memStr := js "1.00" } },
   { title := js "Room B", pid := 2, proxy := none
     usage := .error (js "boom") },
   { title := js "Room C", pid := 3, proxy := none
     usage := .ok { pid := 3, cpuStr := js "1.00", memStr := js "1.00" } }]

/-- envEx but with the faulty fleet live. -/
def envFaulty : Env := { envEx with browsers := faultyFleet }

/-- The descriptions of every embed a dispatch run sends or edits into
the channel (what the operator can read). -/
def sentDescs (effs : List Effect) : List JsStr :=
  effs.filterMap (fun eff =>
    match eff with
    | .send em => some em.description
    | .edit em => some em.description
    | _ => none)

theorem jsStartsWith_append (p r : JsStr) : jsStartsWith p (p ++ r) = true := by
  induction p with
  | nil => rfl
  | cons c cs ih => simp [jsStartsWith, ih]

theorem length_le_of_jsStartsWith (p s : JsStr) (h : jsStartsWith p s = true) :
    p.length ≤ s.length := by
  induction p generalizing s with
  | nil => simp
  | cons c cs ih =>
    cases s with
    | nil => simp [jsStartsWith] at h
    | cons d ds =>
      simp only [jsStartsWith, Bool.and_eq_true, decide_eq_true_eq] at h
      simpa using ih ds h.2

theorem mem_of_jsStartsWith (p s : JsStr) (h : jsStartsWith p s = true) :
    ∀ c ∈ p, c ∈ s := by
  induction p generalizing s with
  | nil => simp
  | cons c cs ih =>
    cases s with
    | nil => simp [jsStartsWith] at h
    | cons d ds =>
      simp only [jsStartsWith, Bool.and_eq_true, decide_eq_true_eq] at h
      intro x hx
      rcases List.mem_cons.mp hx with hx | hx
      · exact hx ▸ h.1 ▸ List.mem_cons_self d ds
      · exact List.mem_cons_of_mem d (ih ds h.2 x hx)

theorem jsReplaceFirst_of_longer (p r s : JsStr) (h : s.length < p.length) :
    jsReplaceFirst p r s = s := by
  induction s with
  | nil =>
    have hp : p ≠ [] := by
      intro hp; rw [hp] at h; simp at h
    simp [jsReplaceFirst, hp]
  | cons c cs ih =>
    have hsw : jsStartsWith p (c :: cs) = false := by
      cases hsw : jsStartsWith p (c :: cs) with
      | false => rfl
      | true => exact absurd (length_le_of_jsStartsWith p (c :: cs) hsw) (by omega)
    rw [jsReplaceFirst, hsw]
    simp only [Bool.false_eq_true, if_false]
    rw [ih (by simp at h ⊢; omega)]

theorem jsReplaceFirst_append (p r t : JsStr) :
    jsReplaceFirst p r (p ++ t) = r ++ t := by
  cases hp : p ++ t with
  | nil =>
    rcases List.append_eq_nil.mp hp with ⟨h1, h2⟩
    simp [jsReplaceFirst, h1, h2]
  | cons c cs =>
    have hsw : jsStartsWith p (c :: cs) = true := by
      rw [← hp]; exact jsStartsWith_append p t
    rw [jsReplaceFirst, hsw]
    simp only [if_true]
    rw [← hp, List.drop_left]

theorem jsReplaceFirst_of_missing_char (p r s : JsStr) (c : Char)
    (hcp : c ∈ p) (hcs : c ∉ s) : jsReplaceFirst p r s = s := by
  induction s with
  | nil =>
    have hp : p ≠ [] := by rintro rfl; simp at hcp
    simp [jsReplaceFirst, hp]
  | cons d ds ih =>
    have hsw : jsStartsWith p (d :: ds) = false := by
      cases hsw : jsStartsWith p (d :: ds) with
      | false => rfl
      | true => exact absurd (mem_of_jsStartsWith p (d :: ds) hsw c hcp) hcs
    rw [jsReplaceFirst, hsw]
    simp only [Bool.false_eq_true, if_false]
    rw [ih (fun hc => hcs (List.mem_cons_of_mem d hc))]

theorem dropWhile_eq_self_of_none (p : Char → Bool) (l : JsStr)
    (h : ∀ c ∈ l, p c = false) : l.dropWhile p = l := by
  cases l with
  | nil => rfl
  | cons c cs => rw [List.dropWhile_cons, h c (by simp)]; simp

theorem jsTrim_eq_self (w : JsStr) (h : ∀ c ∈ w, c.isWhitespace = false) :
    jsTrim w = w := by
  unfold jsTrim
  rw [dropWhile_eq_self_of_none _ w h,
      dropWhile_eq_self_of_none _ w.reverse (fun c hc => h c (List.mem_reverse.mp hc)),
      List.reverse_reverse]

theorem jsSplitAux_no_sep (sep : Char) (s acc : JsStr) (h : ∀ c ∈ s, c ≠ sep) :
    jsSplitAux sep s acc = [acc.reverse ++ s] := by
  induction s generalizing acc with
  | nil => simp [jsSplitAux]
  | cons c cs ih =>
    rw [jsSplitAux, if_neg (h c (by simp))]
    rw [ih (c :: acc) (fun x hx => h x (List.mem_cons_of_mem c hx))]
    simp

theorem jsSplit_no_sep (sep : Char) (s : JsStr) (h : ∀ c ∈ s, c ≠ sep) :
    jsSplit sep s = [s] := by
  rw [jsSplit, jsSplitAux_no_sep sep s [] h]; rfl

/-- Parsing a message that is exactly the marker followed by one
whitespace-free word: the word is the sole token, rawArgs is empty, the
command is the lower-cased word, and rawTail is the word itself (the
replaced pattern, the word plus a space, does not occur in it). -/
theorem parseMsg_single (pre w : JsStr) (h : ∀ c ∈ w, c.isWhitespace = false) :
    parseMsg pre (pre ++ w) = { args := [], text := w, command := jsToLower w } := by
  have hdrop : (pre ++ w).drop pre.length = w := List.drop_left pre w
  have htrim : jsTrim w = w := jsTrim_eq_self w h
  have hsplit : jsSplit ' ' w = [w] := by
    refine jsSplit_no_sep ' ' w (fun c hc hce => ?_)
    have := h c hc
    rw [hce] at this
    simp [Char.isWhitespace] at this
  unfold parseMsg
  rw [hdrop, htrim, hsplit]
  simp only [List.tail_cons, List.headD_cons]
  refine congrArg (fun t => Parsed.mk [] t (jsToLower w)) ?_
  exact jsReplaceFirst_of_longer (w ++ [' ']) [] w (by simp)

theorem seenProxies_go_mem (rs : List (JsStr × Option JsStr)) :
    ∀ (acc : List (Option JsStr)) (q : Option JsStr),
      q ∈ rs.foldl (fun acc r => if r.2 ∈ acc then acc else acc ++ [r.2]) acc ↔
        q ∈ acc ∨ q ∈ rs.map (·.2) := by
  induction rs with
  | nil => simp
  | cons r rs ih =>
    intro acc q
    rw [List.foldl_cons]
    by_cases hr : r.2 ∈ acc
    · rw [if_pos hr, ih]
      simp only [List.map_cons, List.mem_cons]
      constructor
      · rintro (h | h)
        · exact Or.inl h
        · exact Or.inr (Or.inr h)
      · rintro (h | h | h)
        · exact Or.inl h
        · exact Or.inl (h ▸ hr)
        · exact Or.inr h
    · rw [if_neg hr, ih]
      simp only [List.mem_append, List.mem_singleton, List.map_cons, List.mem_cons]
      tauto

theorem mem_seenProxies (rs : List (JsStr × Option JsStr)) (q : Option JsStr) :
    q ∈ seenProxies rs ↔ q ∈ rs.map (·.2) := by
  rw [seenProxies, seenProxies_go_mem rs [] q]
  simp

theorem seenProxies_go_nodup (rs : List (JsStr × Option JsStr)) :
    ∀ (acc : List (Option JsStr)), acc.Nodup →
      (rs.foldl (fun acc r => if r.2 ∈ acc then acc else acc ++ [r.2]) acc).Nodup := by
  induction rs with
  | nil => exact fun acc h => h
  | cons r rs ih =>
    intro acc h
    rw [List.foldl_cons]
    by_cases hr : r.2 ∈ acc
    · rw [if_pos hr]; exact ih acc h
    · rw [if_neg hr]
      refine ih _ ?_
      rw [List.nodup_append]
      refine ⟨h, List.nodup_singleton r.2, ?_⟩
      intro a ha hax
      rw [List.mem_singleton] at hax
      exact hr (hax ▸ ha)

theorem nodup_seenProxies (rs : List (JsStr × Option JsStr)) :
    (seenProxies rs).Nodup :=
  seenProxies_go_nodup rs [] List.nodup_nil

theorem seenProxies_append (rs : List (JsStr × Option JsStr)) (r : JsStr × Option JsStr) :
    seenProxies (rs ++ [r]) =
      if r.2 ∈ seenProxies rs then seenProxies rs else seenProxies rs ++ [r.2] := by
  rw [seenProxies, List.foldl_append]
  rfl

theorem groupText_append (rs : List (JsStr × Option JsStr)) (r : JsStr × Option JsStr)
    (p : Option JsStr) :
    groupText (rs ++ [r]) p =
      if r.2 = p then groupText rs p ++ r.1 ++ ['\n'] else groupText rs p := by
  unfold groupText
  rw [List.filter_append, List.foldl_append]
  by_cases h : r.2 = p
  · rw [if_pos h]
    simp [List.filter, h]
  · rw [if_neg h]
    simp [List.filter, h]

theorem groupText_of_not_mem (rs : List (JsStr × Option JsStr)) (p : Option JsStr)
    (h : p ∉ rs.map (·.2)) : groupText rs p = [] := by
  unfold groupText
  have : rs.filter (fun r => decide (r.2 = p)) = [] := by
    rw [List.filter_eq_nil_iff]
    intro a ha
    simp only [decide_eq_true_eq]
    intro hap
    exact h (List.mem_map.mpr ⟨a, ha, hap⟩)
  rw [this]
  rfl

theorem pushRoom_map_update (ps : List (Option JsStr)) (gt : Option JsStr → JsStr)
    (n : JsStr) (q : Option JsStr) (hnd : ps.Nodup) (hq : q ∈ ps) :
    pushRoom n q (ps.map (fun p => { text := gt p, proxy := p })) =
      ps.map (fun p =>
        { text := if p = q then gt p ++ n ++ ['\n'] else gt p, proxy := p }) := by
  induction ps with
  | nil => simp at hq
  | cons p0 ps ih =>
    rw [List.map_cons, List.map_cons, pushRoom]
    by_cases h0 : p0 = q
    · rw [if_pos h0, if_pos h0]
      refine congrArg₂ List.cons rfl ?_
      refine List.map_congr_left (fun p hp => ?_)
      have hpq : p ≠ q := by
        intro hpq
        rw [List.nodup_cons] at hnd
        exact hnd.1 (h0 ▸ hpq ▸ hp)
      rw [if_neg hpq]
    · rw [if_neg h0, if_neg h0]
      refine congrArg₂ List.cons rfl ?_
      have hq' : q ∈ ps := by
        rcases List.mem_cons.mp hq with h | h
        · exact absurd h.symm h0
        · exact h
      exact ih (List.nodup_cons.mp hnd).2 hq'

theorem pushRoom_map_new (ps : List (Option JsStr)) (gt : Option JsStr → JsStr)
    (n : JsStr) (q : Option JsStr) (hq : q ∉ ps) :
    pushRoom n q (ps.map (fun p => { text := gt p, proxy := p })) =
      ps.map (fun p => { text := gt p, proxy := p })
        ++ [{ text := n ++ ['\n'], proxy := q }] := by
  induction ps with
  | nil => rfl
  | cons p0 ps ih =>
    rw [List.map_cons, pushRoom]
    have h0 : p0 ≠ q := fun h => hq (h ▸ List.mem_cons_self p0 ps)
    rw [if_neg h0]
    rw [ih (fun h => hq (List.mem_cons_of_mem p0 h))]
    rfl

/-- The grouping loop of _getRoomNameList computes exactly the
spec-side grouping: one group per distinct proxy tag in first-seen
order, each holding the newline-terminated names of its rooms in room
order. -/
theorem buildGroups_eq_groupSpec (rs : List (JsStr × Option JsStr)) :
    buildGroups rs = groupSpec rs := by
  induction rs using List.reverseRecOn with
  | nil => rfl
  | append_singleton rs r ih =>
    have hstep : buildGroups (rs ++ [r]) = pushRoom r.1 r.2 (buildGroups rs) := by
      rw [buildGroups, List.foldl_append]
      rfl
    rw [hstep, ih, groupSpec]
    by_cases hq : r.2 ∈ seenProxies rs
    · rw [groupSpec, pushRoom_map_update (seenProxies rs) (groupText rs) r.1 r.2
        (nodup_seenProxies rs) hq]
      rw [seenProxies_append, if_pos hq]
      refine List.map_congr_left (fun p hp => ?_)
      rw [groupText_append]
      by_cases hpr : p = r.2
      · rw [if_pos hpr, if_pos hpr.symm]
      · rw [if_neg hpr, if_neg (fun h => hpr h.symm)]
    · rw [groupSpec, pushRoom_map_new (seenProxies rs) (groupText rs) r.1 r.2 hq]
      rw [seenProxies_append, if_neg hq, List.map_append]
      refine congrArg₂ List.append ?_ ?_
      · refine List.map_congr_left (fun p hp => ?_)
        have hne : ¬ (r.2 = p) := fun h => hq (by rw [h]; exact hp)
        rw [groupText_append, if_neg hne]
      · rw [List.map_singleton, groupText_append, if_pos rfl,
          groupText_of_not_mem rs r.2 (fun h => hq ((mem_seenProxies rs r.2).mpr h))]
        rfl

theorem dispatch_auth (env : Env) (cfg : Config) (m : Msg)
    (hs : jsStartsWith cfg.pre m.content = true) (ha : m.author ∈ cfg.masters) :
    dispatch env cfg m = route env cfg (parseMsg cfg.pre m.content) := by
  unfold dispatch
  rw [if_pos hs, if_pos ha]

theorem route_tokenlink (env : Env) (cfg : Config) (p : Parsed)
    (hc : p.command = js "tokenlink") : route env cfg p = ([.send tokenlinkEmbed], none) := by
  unfold route
  rw [hc]
  rw [if_neg (by decide : ¬ (js "tokenlink" = js "help")), if_pos rfl]

theorem route_open (env : Env) (cfg : Config) (p : Parsed)
    (hc : p.command = js "open") : route env cfg p = (openEffects env cfg p, none) := by
  unfold route
  rw [hc]
  rw [if_neg (by decide : ¬ (js "open" = js "help")),
      if_neg (by decide : ¬ (js "open" = js "tokenlink")), if_pos rfl]

theorem route_meminfo (env : Env) (cfg : Config) (p : Parsed)
    (hc : p.command = js "meminfo") : route env cfg p = meminfoEffects env := by
  unfold route
  rw [hc]
  rw [if_neg (by decide : ¬ (js "meminfo" = js "help")),
      if_neg (by decide : ¬ (js "meminfo" = js "tokenlink")),
      if_neg (by decide : ¬ (js "meminfo" = js "open")),
      if_neg (by decide : ¬ (js "meminfo" = js "info")), if_pos rfl]

theorem route_close (env : Env) (cfg : Config) (p : Parsed)
    (hc : p.command = js "close") : route env cfg p = closeEffects env p := by
  unfold route
  rw [hc]
  rw [if_neg (by decide : ¬ (js "close" = js "help")),
      if_neg (by decide : ¬ (js "close" = js "tokenlink")),
      if_neg (by decide : ¬ (js "close" = js "open")),
      if_neg (by decide : ¬ (js "close" = js "info")),
      if_neg (by decide : ¬ (js "close" = js "meminfo")), if_pos rfl]

theorem route_unknown (env : Env) (cfg : Config) (p : Parsed)
    (hc : p.command ∉ knownCommands) : route env cfg p = ([], none) := by
  unfold route
  have h : ∀ w : JsStr, w ∈ knownCommands → ¬ (p.command = w) := by
    intro w hw he
    exact hc (he ▸ hw)
  rw [if_neg (h (js "help") (by decide)),
      if_neg (h (js "tokenlink") (by decide)),
      if_neg (h (js "open") (by decide)),
      if_neg (h (js "info") (by decide)),
      if_neg (h (js "meminfo") (by decide)),
      if_neg (h (js "close") (by decide)),
      if_neg (h (js "exit") (by decide)),
      if_neg (h (js "eval") (by decide))]

theorem openEffects_unknown (env : Env) (cfg : Config) (p : Parsed)
    (hb : ¬ botKnown cfg p.args) :
    openEffects env cfg p =
      [.send { title := js "Open room", description := unknownBotDesc cfg.pre }] := by
  unfold openEffects
  rw [if_neg hb]

theorem openEffects_ok (env : Env) (cfg : Config) (p : Parsed) (data : JsStr)
    (hb : botKnown cfg p.args)
    (hr : env.readFile (botPath cfg p.args) = .ok data) :
    openEffects env cfg p =
      [.openRoom data (openTokenOf p),
       .send { title := js "Open room",
               description := openOutcomeDesc env data (openTokenOf p) }] := by
  unfold openEffects
  rw [if_pos hb, hr]
  by_cases ht : openTokenOf p = [] <;> simp [ht]

/-- The first failing per-room telemetry sample makes the whole of
_getRoomUsageList fail: the loop is sequential and unguarded, so no
partial list survives a failure. -/
theorem getRoomUsageList_error (bs : List Browser) (b : Browser) (e : JsStr)
    (hmem : b ∈ bs) (herr : b.usage = .error e) :
    ∃ e2, _getRoomUsageList bs = .error e2 := by
  induction bs with
  | nil => simp at hmem
  | cons b0 rest ih =>
    rcases List.mem_cons.mp hmem with h | h
    · rw [_getRoomUsageList, ← h, herr]
      exact ⟨e, rfl⟩
    · rw [_getRoomUsageList]
      cases hu : b0.usage with
      | error e0 => exact ⟨e0, rfl⟩
      | ok s =>
        rcases ih h with ⟨e2, h2⟩
        rw [h2]
        exact ⟨e2, rfl⟩

/-- When every room samples fine, _getRoomUsageList succeeds with one
entry per room, in room order. -/
theorem getRoomUsageList_ok (bs : List Browser)
    (h : ∀ b ∈ bs, ∃ s, b.usage = .ok s) :
    ∃ l, _getRoomUsageList bs = .ok l ∧
      l.map (fun u => u.2) = bs.map (fun b => b.title) := by
  induction bs with
  | nil => exact ⟨[], rfl, rfl⟩
  | cons b0 rest ih =>
    rcases h b0 (List.mem_cons_self b0 rest) with ⟨s, hs⟩
    rcases ih (fun b hb => h b (List.mem_cons_of_mem b0 hb)) with ⟨l, hl, hmap⟩
    refine ⟨(s, b0.title) :: l, ?_, ?_⟩
    · rw [_getRoomUsageList, hs, hl]
    · simp [hmap]

/-- C4: For every open command whose botId is not a key of the bot
catalogue, no room process is spawned and no fleet-mutating request of
any kind is issued (so the fleet set is left unchanged), and the
operator receives the unknown-bot reply as the only effect. -/
theorem C4_open_unknown_bot (env : Env) (cfg : Config) (m : Msg)
    (hs : jsStartsWith cfg.pre m.content = true)
    (ha : m.author ∈ cfg.masters)
    (hc : (parseMsg cfg.pre m.content).command = js "open")
    (hb : ¬ botKnown cfg (parseMsg cfg.pre m.content).args) :
    dispatch env cfg m =
      ([.send { title := js "Open room", description := unknownBotDesc cfg.pre }],
       none) ∧
    ∀ eff ∈ (dispatch env cfg m).1, eff.mutatesFleet = false := by
  have h1 : dispatch env cfg m =
      ([.send { title := js "Open room", description := unknownBotDesc cfg.pre }],
       none) := by
    rw [dispatch_auth env cfg m hs ha, route_open env cfg _ hc,
        openEffects_unknown env cfg _ hb]
  refine ⟨h1, ?_⟩
  rw [h1]
  intro eff heff
  rw [List.mem_singleton.mp heff]
  rfl

/-- Witness for C4 at the message "!open nobody tok" (the catalogue
only holds "alpha"). -/
theorem C4_witness :
    dispatch envEx cfgEx { author := js "m1", content := js "!open nobody tok" } =
      ([.send { title := js "Open room", description := unknownBotDesc cfgEx.pre }],
       none) :=
  (C4_open_unknown_bot envEx cfgEx
    { author := js "m1", content := js "!open nobody tok" }
    (by decide) (by decide) (by decide) (by decide)).1

/-- C5: A message from a sender outside the allow-list is handled as a
silent no-op -- no effect and no error -- and this outcome coincides
with that of a message bearing an unrecognized command name from an
authorized sender. -/
theorem C5_unauthorized_silent (env : Env) (cfg : Config) (m m2 : Msg)
    (hu : m.author ∉ cfg.masters)
    (hs2 : jsStartsWith cfg.pre m2.content = true)
    (ha2 : m2.author ∈ cfg.masters)
    (hc2 : (parseMsg cfg.pre m2.content).command ∉ knownCommands) :
    dispatch env cfg m = ([], none) ∧ dispatch env cfg m = dispatch env cfg m2 := by
  have h1 : dispatch env cfg m = ([], none) := by
    unfold dispatch
    by_cases hs : jsStartsWith cfg.pre m.content = true
    · rw [if_pos hs, if_neg hu]
    · rw [if_neg hs]
  have h2 : dispatch env cfg m2 = ([], none) := by
    rw [dispatch_auth env cfg m2 hs2 ha2, route_unknown env cfg _ hc2]
  exact ⟨h1, h1.trans h2.symm⟩

/-- Witness for C5: the intruder's "!exit" and the operator's
unrecognized "!frobnicate" both dispatch to nothing. -/
theorem C5_witness :
    dispatch envEx cfgEx { author := js "intruder", content := js "!exit" } = ([], none) ∧
    dispatch envEx cfgEx { author := js "intruder", content := js "!exit" } =
      dispatch envEx cfgEx { author := js "m1", content := js "!frobnicate" } :=
  C5_unauthorized_silent envEx cfgEx
    { author := js "intruder", content := js "!exit" }
    { author := js "m1", content := js "!frobnicate" }
    (by decide) (by decide) (by decide) (by decide)

/-- C10: For every authorized sender, the command name tokenlink is
accepted and replied to with the fixed headless-token-page embed; it
belongs to the dispatcher's command surface alongside help, info,
meminfo, open, close, exit and eval. -/
theorem C10_tokenlink_reachable (env : Env) (cfg : Config) (m : Msg)
    (hs : jsStartsWith cfg.pre m.content = true)
    (ha : m.author ∈ cfg.masters)
    (hc : (parseMsg cfg.pre m.content).command = js "tokenlink") :
    dispatch env cfg m = ([.send tokenlinkEmbed], none) ∧
    js "tokenlink" ∈ knownCommands := by
  refine ⟨?_, by decide⟩
  rw [dispatch_auth env cfg m hs ha, route_tokenlink env cfg _ hc]

/-- Witness for C10 at the message "!tokenlink". -/
theorem C10_witness :
    dispatch envEx cfgEx { author := js "m1", content := js "!tokenlink" } =
      ([.send tokenlinkEmbed], none) ∧
    js "tokenlink" ∈ knownCommands :=
  C10_tokenlink_reachable envEx cfgEx
    { author := js "m1", content := js "!tokenlink" }
    (by decide) (by decide) (by decide)

/-- C8: For a message that is exactly the marker followed by one
whitespace-free command word, the computed rawTail is the command word
itself, not the empty string (the replaced pattern, the word plus a
space, does not occur); consequently an authorized bare "close" asks
the server to close a room matching the literal word "close". -/
theorem C8_bare_close_target :
    (∀ pre w : JsStr, (∀ c ∈ w, c.isWhitespace = false) →
      (parseMsg pre (pre ++ w)).text = w) ∧
    (∀ (env : Env) (cfg : Config) (m : Msg), m.author ∈ cfg.masters →
      m.content = cfg.pre ++ js "close" →
      (dispatch env cfg m).1.head? = some (.closeRoom (js "close"))) := by
  constructor
  · intro pre w h
    rw [parseMsg_single pre w h]
  · intro env cfg m ha hm
    have hs : jsStartsWith cfg.pre m.content = true := by
      rw [hm]; exact jsStartsWith_append _ _
    have hp : parseMsg cfg.pre m.content =
        { args := [], text := js "close", command := js "close" } := by
      rw [hm, parseMsg_single cfg.pre (js "close") (by decide)]
      rfl
    rw [dispatch_auth env cfg m hs ha, route_close env cfg _ (by rw [hp])]
    unfold closeEffects
    rw [hp]
    cases hcr : env.closeRoom (js "close") with
    | error e => rfl
    | ok b => cases b <;> rfl

/-- Witness for C8: the word "close" itself, and the concrete message
"!close" from the operator. -/
theorem C8_witness :
    (parseMsg (js "!") (js "!" ++ js "close")).text = js "close" ∧
    (dispatch envEx cfgEx
        { author := js "m1", content := cfgEx.pre ++ js "close" }).1.head? =
      some (.closeRoom (js "close")) :=
  ⟨C8_bare_close_target.1 (js "!") (js "close") (by decide),
   C8_bare_close_target.2 envEx cfgEx
     { author := js "m1", content := cfgEx.pre ++ js "close" } (by decide) rfl⟩

/-- C9: For every open command that reaches the spawn (known bot,
readable script), the token handed to the spawn call is the raw second
argument text with every double quote removed and the literal
"Token obtained: " removed at its first occurrence; in particular, when
the quote-stripped second argument starts with that literal, the spawn
receives exactly the part after it. -/
theorem C9_token_sanitized (env : Env) (cfg : Config) (m : Msg) (data : JsStr)
    (hs : jsStartsWith cfg.pre m.content = true)
    (ha : m.author ∈ cfg.masters)
    (hc : (parseMsg cfg.pre m.content).command = js "open")
    (hb : botKnown cfg (parseMsg cfg.pre m.content).args)
    (hr : env.readFile (botPath cfg (parseMsg cfg.pre m.content).args) = .ok data) :
    (dispatch env cfg m).1.head? =
      some (.openRoom data (tokenSpec (parseMsg cfg.pre m.content))) ∧
    ∀ rest : JsStr,
      jsRemoveQuotes (secondArgText (parseMsg cfg.pre m.content)) =
        js "Token obtained: " ++ rest →
      (dispatch env cfg m).1.head? = some (.openRoom data rest) := by
  have hd : dispatch env cfg m =
      ([.openRoom data (openTokenOf (parseMsg cfg.pre m.content)),
        .send { title := js "Open room",
                description := openOutcomeDesc env data
                  (openTokenOf (parseMsg cfg.pre m.content)) }], none) := by
    rw [dispatch_auth env cfg m hs ha, route_open env cfg _ hc,
        openEffects_ok env cfg _ data hb hr]
  have htok : openTokenOf (parseMsg cfg.pre m.content) =
      tokenSpec (parseMsg cfg.pre m.content) := rfl
  constructor
  · rw [hd, htok]; rfl
  · intro rest hq
    have : tokenSpec (parseMsg cfg.pre m.content) = rest := by
      rw [tokenSpec, hq, jsReplaceFirst_append]
      rfl
    rw [hd, htok, this]
    rfl

/-- Witness for C9 at the message carrying a pasted quoted token. -/
theorem C9_witness :
    (dispatch envEx cfgEx
        { author := js "m1",
          content := js "!open alpha \"Token obtained: abc\"" }).1.head? =
      some (.openRoom (js "SCRIPT") (js "abc")) :=
  (C9_token_sanitized envEx cfgEx
    { author := js "m1", content := js "!open alpha \"Token obtained: abc\"" }
    (js "SCRIPT") (by decide) (by decide) (by decide) (by decide) (by decide)).2
    (js "abc") (by decide)

/-- C7: For every fleet with at least one proxied room, the room name
list renders the spec-side grouping -- one group per proxy tag in
first-seen order, unlabeled rooms forming their own group -- as a
header line per group followed by its member names; and on the concrete
fleet [Room A/proxy1, Room B/proxy1, Room C/unlabeled] the output is
the proxy1 header with Room A and Room B, then the unlabeled group with
Room C. -/
theorem C7_describe_groups_by_proxy (bs : List Browser)
    (h : ∃ b ∈ bs, b.proxy ≠ none) :
    _getRoomNameList bs =
      joinSep ['\n'] ((groupSpec (roomsOf bs)).map
        (fun g => js "• " ++ renderProxy g.proxy ++ ['\n'] ++ g.text)) ∧
    _getRoomNameList exampleFleet =
      js "• proxy1\nRoom A (1)\nRoom B (2)\n\n• undefined\nRoom C (3)\n" := by
  refine ⟨?_, by decide⟩
  rcases h with ⟨b, hb, hbp⟩
  have hne : ¬ (roomsOf bs = []) := by
    intro hnil
    rw [roomsOf, List.map_eq_nil_iff] at hnil
    rw [hnil] at hb
    simp at hb
  have hnall : ¬ (∀ r ∈ roomsOf bs, r.2 = none) := by
    intro hall
    exact hbp (hall (roomName b, b.proxy) (List.mem_map.mpr ⟨b, hb, rfl⟩))
  unfold _getRoomNameList
  rw [if_neg hne, if_neg hnall, buildGroups_eq_groupSpec]

/-- Witness for C7 at the concrete three-room fleet. -/
theorem C7_witness :
    (∃ b ∈ exampleFleet, b.proxy ≠ none) ∧
    (_getRoomNameList exampleFleet =
      joinSep ['\n'] ((groupSpec (roomsOf exampleFleet)).map
        (fun g => js "• " ++ renderProxy g.proxy ++ ['\n'] ++ g.text)) ∧
    _getRoomNameList exampleFleet =
      js "• proxy1\nRoom A (1)\nRoom B (2)\n\n• undefined\nRoom C (3)\n") :=
  ⟨by decide, C7_describe_groups_by_proxy exampleFleet (by decide)⟩

theorem jsSplitAux_sep (sep : Char) (xs ys acc : JsStr) (h : ∀ c ∈ xs, c ≠ sep) :
    jsSplitAux sep (xs ++ sep :: ys) acc = (acc.reverse ++ xs) :: jsSplitAux sep ys [] := by
  induction xs generalizing acc with
  | nil =>
    rw [List.nil_append, jsSplitAux, if_pos rfl]
    simp
  | cons x xs ih =>
    rw [List.cons_append, jsSplitAux, if_neg (h x (by simp))]
    rw [ih (x :: acc) (fun c hc => h c (List.mem_cons_of_mem x hc))]
    simp

theorem jsSplit_sep (sep : Char) (xs ys : JsStr) (h : ∀ c ∈ xs, c ≠ sep) :
    jsSplit sep (xs ++ sep :: ys) = xs :: jsSplit sep ys := by
  rw [jsSplit, jsSplitAux_sep sep xs ys [] h]
  rfl

/-- Parsing a message that is the marker, a space-free word, a space
and an arbitrary remainder that survives trimming: the command is the
lower-cased word, the remaining single-space tokens are the args, and
rawTail is exactly the remainder (double quotes, inner spaces and all),
because the removed pattern is the word followed by the space. -/
theorem parseMsg_two (pre w rest : JsStr)
    (hw : ∀ c ∈ w, c ≠ ' ')
    (htr : jsTrim (w ++ ' ' :: rest) = w ++ ' ' :: rest) :
    parseMsg pre (pre ++ (w ++ ' ' :: rest)) =
      { args := jsSplit ' ' rest, text := rest, command := jsToLower w } := by
  have hdrop : (pre ++ (w ++ ' ' :: rest)).drop pre.length = w ++ ' ' :: rest :=
    List.drop_left pre _
  have hsplit : jsSplit ' ' (w ++ ' ' :: rest) = w :: jsSplit ' ' rest :=
    jsSplit_sep ' ' w rest hw
  unfold parseMsg
  rw [hdrop, htr, hsplit]
  simp only [List.tail_cons, List.headD_cons]
  refine congrArg (fun t => Parsed.mk (jsSplit ' ' rest) t (jsToLower w)) ?_
  have hx : w ++ ' ' :: rest = (w ++ [' ']) ++ rest := by simp
  rw [hx, jsReplaceFirst_append]
  rfl

/-- C6 counterexample: at the double-spaced message "!close  Room A"
the source parse (split on the single space character) disagrees with
the spec-worded parse (split on whitespace, command name removed once):
the source yields an empty first rawArg and rawTail " Room A". -/
theorem C6_counterexample :
    parseMsg (js "!") (js "!close  Room A") ≠
      specParse (js "!") (js "!close  Room A") := by
  decide

/-- C6 amended: parsing strips the marker, trims, splits the remainder
on single space characters (consecutive spaces yield empty tokens and
other whitespace is not a separator), lower-cases the first token into
the command name, keeps the remaining tokens as rawArgs, and computes
rawTail as the trimmed text with the first occurrence of the first
token followed by a space removed; hence for a single-space separated
message the rawTail is everything after the first space, which is how
multi-word textual arguments survive. -/
theorem C6_amended_parse :
    (∀ pre content : JsStr,
      parseMsg pre content =
        { args := (jsSplit ' ' (jsTrim (content.drop pre.length))).tail
          text := jsReplaceFirst
            ((jsSplit ' ' (jsTrim (content.drop pre.length))).headD [] ++ [' ']) []
            (jsTrim (content.drop pre.length))
          command :=
            jsToLower ((jsSplit ' ' (jsTrim (content.drop pre.length))).headD []) }) ∧
    (∀ pre w rest : JsStr, (∀ c ∈ w, c ≠ ' ') →
      jsTrim (w ++ ' ' :: rest) = w ++ ' ' :: rest →
      parseMsg pre (pre ++ (w ++ ' ' :: rest)) =
        { args := jsSplit ' ' rest, text := rest, command := jsToLower w }) :=
  ⟨fun _ _ => rfl, parseMsg_two⟩

/-- Witness for C6 at the marker "!", the word "close" and the
multi-word remainder "Room A". -/
theorem C6_witness :
    parseMsg (js "!") (js "!" ++ (js "close" ++ ' ' :: js "Room A")) =
      { args := jsSplit ' ' (js "Room A"), text := js "Room A",
        command := jsToLower (js "close") } :=
  C6_amended_parse.2 (js "!") (js "close") (js "Room A") (by decide) (by decide)

/-- C3 counterexample: for "!open alpha" -- known bot, no token
argument at all -- the token the source computes is "alpha" (the botId
itself: text.replace("alpha ","") leaves "alpha" untouched), so the
missing-token branch is not even entered, the spawn proceeds with this
token, and no sent or edited embed carries the warning description. -/
theorem C3_counterexample :
    dispatch envEx cfgEx { author := js "m1", content := js "!open alpha" } =
      ([.openRoom (js "SCRIPT") (js "alpha"),
        .send { title := js "Open room",
                description :=
                  js "Room running! [Click here to join.](L)\nBrowser process: 7" }],
       none) ∧
    missingTokenDesc cfgEx.pre ∉
      sentDescs (dispatch envEx cfgEx
        { author := js "m1", content := js "!open alpha" }).1 := by
  exact ⟨by decide, by decide⟩

/-- C3 amended: for an open command whose botId is known and whose
token argument is missing (exactly one argument token), the computed
token equals the botId itself, so no missing-token warning is produced
at all; the spawn attempt proceeds with the botId string as its token,
and the single reply describes only the spawn outcome, whose text is
never the warning text. -/
theorem C3_amended_token_fallback (env : Env) (cfg : Config) (m : Msg)
    (b data : JsStr)
    (hs : jsStartsWith cfg.pre m.content = true)
    (ha : m.author ∈ cfg.masters)
    (hp : parseMsg cfg.pre m.content =
      { args := [b], text := b, command := js "open" })
    (hbq : ∀ c ∈ b, c ≠ '"')
    (hbs : ∀ c ∈ b, c ≠ ' ')
    (hknown : b ∈ cfg.bots.map (·.1))
    (hr : env.readFile (botPath cfg [b]) = .ok data) :
    dispatch env cfg m =
      ([.openRoom data b,
        .send { title := js "Open room",
                description := openOutcomeDesc env data b }], none) ∧
    openOutcomeDesc env data b ≠ missingTokenDesc cfg.pre := by
  have hbk : botKnown cfg (parseMsg cfg.pre m.content).args := by
    rw [hp]; exact hknown
  have htok : openTokenOf (parseMsg cfg.pre m.content) = b := by
    rw [hp]
    show jsReplaceFirst (js "Token obtained: ") []
      (jsRemoveQuotes (jsReplaceFirst (b ++ [' ']) [] b)) = b
    rw [jsReplaceFirst_of_longer (b ++ [' ']) [] b (by simp)]
    have hq : jsRemoveQuotes b = b := by
      rw [jsRemoveQuotes, List.filter_eq_self.mpr]
      intro a ha2
      simp only [ne_eq, decide_not, Bool.not_eq_eq_eq_not, Bool.not_true,
        decide_eq_false_iff_not]
      exact hbq a ha2
    rw [hq]
    exact jsReplaceFirst_of_missing_char _ [] b ' ' (by decide)
      (fun hsp => hbs ' ' hsp rfl)
  constructor
  · rw [dispatch_auth env cfg m hs ha, route_open env cfg _ (by rw [hp]),
        openEffects_ok env cfg _ data hbk (by rw [hp]; exact hr), htok]
  · unfold openOutcomeDesc
    cases ho : env.openRoom data b with
    | ok r =>
      intro h
      have hh : (some 'R' : Option Char) = some 'Y' := congrArg List.head? h
      exact absurd hh (by decide)
    | error e =>
      intro h
      have hh : (some 'U' : Option Char) = some 'Y' := congrArg List.head? h
      exact absurd hh (by decide)

/-- Witness for the amended C3 at the message "!open alpha". -/
theorem C3_witness :
    dispatch envEx cfgEx { author := js "m1", content := js "!open alpha" } =
      ([.openRoom (js "SCRIPT") (js "alpha"),
        .send { title := js "Open room",
                description := openOutcomeDesc envEx (js "SCRIPT") (js "alpha") }],
       none) ∧
    openOutcomeDesc envEx (js "SCRIPT") (js "alpha") ≠ missingTokenDesc cfgEx.pre :=
  C3_amended_token_fallback envEx cfgEx
    { author := js "m1", content := js "!open alpha" } (js "alpha") (js "SCRIPT")
    (by decide) (by decide) (by decide) (by decide) (by decide) (by decide) (by decide)

/-- C2 counterexample: on the three-room fleet whose middle room's
pidusage rejects with "boom", the usage list is not a partial report
with that room omitted -- it is the rejection itself, and the meminfo
handler stops after the Loading placeholder, rejecting with the same
error instead of editing in any report. -/
theorem C2_counterexample :
    _getRoomUsageList faultyFleet = .error (js "boom") ∧
    meminfoEffects envFaulty = ([.send loadingEmbed], some (js "boom")) := by
  exact ⟨by decide, by decide⟩

/-- C2 amended: per-room telemetry sampling is sequential and
fail-fast: whenever any live room's sampling fails, the whole
_getRoomUsageList fails, and the meminfo report is not produced at all
-- the operator is left with the Loading placeholder and the handler
rejects with the sampling error. -/
theorem C2_amended_fail_fast (env : Env) (b : Browser) (e : JsStr)
    (hmem : b ∈ env.browsers) (herr : b.usage = .error e) :
    ∃ e2, _getRoomUsageList env.browsers = .error e2 ∧
      meminfoEffects env = ([.send loadingEmbed], some e2) := by
  rcases getRoomUsageList_error env.browsers b e hmem herr with ⟨e2, h2⟩
  refine ⟨e2, h2, ?_⟩
  unfold meminfoEffects
  rw [h2]

/-- Witness for the amended C2 at the faulty three-room fleet. -/
theorem C2_witness :
    ∃ e2, _getRoomUsageList envFaulty.browsers = .error e2 ∧
      meminfoEffects envFaulty = ([.send loadingEmbed], some e2) :=
  C2_amended_fail_fast envFaulty
    { title := js "Room B", pid := 2, proxy := none, usage := .error (js "boom") }
    (js "boom") (by decide) (by decide)

/-- C1: with the faulty fleet live, the authorized "!meminfo" makes the
handler reject after sending the Loading placeholder, and the message
listener's try/catch -- which does not await the async _command call --
never observes it: the rejection escapes to the event loop as an
unhandled promise rejection instead of becoming a Log Error reply. -/
theorem C1_rejection_escapes_loop :
    onMessage envFaulty cfgEx { author := js "m1", content := js "!meminfo" } =
      .unhandledRejection [.send loadingEmbed] (js "boom") := by
  decide
